import Mathlib

/-
Shallow embedding of the image-metadata engine in src/image_metadata.py.

Modelling conventions:
 - Python floats are modelled as rationals (ℚ); the code only moves metadata
   numbers around and multiplies by the literal 2.54, so exact rational
   arithmetic is the faithful abstraction level.
 - The PIL image object, as far as the code reads it, is the structure
   PILImage: `img.size`, `img.info` (at the six keys the code looks up),
   `img.mode`, `len(img.getbands())`, `getattr(img, "bits", None)` and
   `img.format`.
 - `Image.open` is modelled as an `opener : String → Except OpenError PILImage`
   supplied as a parameter: `OpenError.unidentifiedImage` stands for PIL's
   UnidentifiedImageError, `OpenError.osError` for OSError (which subsumes
   Python's I/O and permission errors) — exactly the two exception classes the
   source catches.
 - The filesystem is an immutable snapshot: FSNode trees whose directories
   carry a `perm` flag saying whether `os.scandir` succeeds on them (False
   models PermissionError on enumeration), and a RootFS describing what the
   root path resolves to after `expanduser`.
 - The generator `_iter_supported_files` is modelled as the list of all paths
   it would yield (the consumer in scan_directory simply stops reading early;
   truncation is performed by scanLoop, so results are unchanged).
 - `walkFuel` runs the source's explicit-stack loop with a fuel argument used
   only as a termination measure; `stackMeasure` fuel is always sufficient
   (walkFuel_congr below shows the fuel value is irrelevant once sufficient).
-/

def SUPPORTED_EXTENSIONS : List (String × String) :=
  [(".jpg", "JPEG"), (".jpeg", "JPEG"), (".png", "PNG"), (".bmp", "BMP"),
   (".gif", "GIF"), (".tif", "TIFF"), (".tiff", "TIFF"), (".pcx", "PCX")]

def extLookup (ext : String) : Option String :=
  (SUPPORTED_EXTENSIONS.find? (fun kv => kv.1 == ext)).map (fun kv => kv.2)

def MAX_FILES : Int := 100000

def MODE_DEFAULT_BITS : List (String × Nat) :=
  [("1", 1), ("L", 8), ("P", 8), ("RGB", 8), ("RGBA", 8), ("CMYK", 8),
   ("YCbCr", 8), ("LAB", 8), ("HSV", 8), ("I", 16), ("I;16", 16), ("F", 32)]

def modeDefaultBits (mode : String) : Option Nat :=
  (MODE_DEFAULT_BITS.find? (fun kv => kv.1 == mode)).map (fun kv => kv.2)

def FORMAT_COMPRESSION_HINTS : List (String × String) :=
  [("JPEG", "JPEG (lossy)"), ("PNG", "Deflate"), ("GIF", "LZW"),
   ("BMP", "None/RLE"), ("TIFF", "Depends on tag"), ("PCX", "RLE")]

def compressionHint (fmt : String) : Option String :=
  (FORMAT_COMPRESSION_HINTS.find? (fun kv => kv.1 == fmt)).map (fun kv => kv.2)

/-- Python `str.lower()` for the ASCII extension strings the code compares. -/
def toLowerStr (s : String) : String := String.mk (s.toList.map Char.toLower)

/-- Python `str.upper()` for the ASCII format names the code compares. -/
def toUpperStr (s : String) : String := String.mk (s.toList.map Char.toUpper)

/-- Python `Path(p).name`: the final path component (paths in this model are
built with "/" separators and no trailing slash). -/
def pathName (p : String) : String :=
  String.mk ((p.toList.reverse.takeWhile (fun c => c ≠ '/')).reverse)

/-- Index of the last occurrence of a dot in a character list, if any. -/
def lastDotIdx : List Char → Option Nat
  | [] => none
  | c :: cs =>
    match lastDotIdx cs with
    | some i => some (i + 1)
    | none => if c = '.' then some 0 else none

/-- Python `PurePath.suffix` on a final component: the substring from the last
dot, provided that dot is neither the first nor the last character. -/
def suffixOf (name : String) : String :=
  let cs := name.toList
  match lastDotIdx cs with
  | none => ""
  | some i => if 0 < i ∧ i + 1 < cs.length then String.mk (cs.drop i) else ""

/-- A value under the "dpi" or "resolution" key of `img.info`: either a scalar
or a (nonempty) tuple, mirroring the two cases the source distinguishes with
`isinstance(v, tuple)`. -/
inductive ResVal where
  | scalar (x : ℚ)
  | tup (x : ℚ) (rest : List ℚ)
  deriving DecidableEq

/-- The `img.info` dictionary at the six keys the source reads. -/
structure PILInfo where
  dpi : Option ResVal
  jfif_density : Option (ℚ × ℚ)
  jfif_unit : Option Int
  resolution : Option ResVal
  compression : Option String
  compression_type : Option String
  deriving DecidableEq

/-- A PIL image object as far as src/image_metadata.py reads it. -/
structure PILImage where
  size : Nat × Nat
  info : PILInfo
  mode : String
  bands : Nat
  bits : Option Nat
  format : Option String
  deriving DecidableEq

/-- The two exception classes that `_read_image_info` catches from
`Image.open` and header reading: UnidentifiedImageError and OSError
(OSError subsumes I/O errors and PermissionError in Python). -/
inductive OpenError where
  | unidentifiedImage
  | osError
  deriving DecidableEq

/-- The ImageInfo dataclass of the source (one record per parsed file). -/
structure ImageInfo where
  path : String
  name : String
  format : String
  width_px : Nat
  height_px : Nat
  dpi_x : Option ℚ
  dpi_y : Option ℚ
  color_depth : String
  compression : String
  deriving DecidableEq

/-- Broadcast rule of `_extract_dpi` for tuple/scalar tag values:
`float(v[0]), float(v[1] if len(v) > 1 else v[0])` for tuples, and the scalar
applied to both axes otherwise. -/
def broadcastRes : ResVal → ℚ × ℚ
  | ResVal.scalar x => (x, x)
  | ResVal.tup x rest => (x, rest.headD x)

/-- The tail of `_extract_dpi` reached when neither the "dpi" key nor a
jfif unit of 1 or 2 produced a result: the "resolution" key, else (None, None). -/
def resolutionFallback (info : PILInfo) : Option ℚ × Option ℚ :=
  match info.resolution with
  | some v => (some (broadcastRes v).1, some (broadcastRes v).2)
  | none => (none, none)

/-- Embedding of `_extract_dpi` (src/image_metadata.py lines 138-160). -/
def _extract_dpi (img : PILImage) : Option ℚ × Option ℚ :=
  let info := img.info
  match info.dpi with
  | some v => (some (broadcastRes v).1, some (broadcastRes v).2)
  | none =>
    match info.jfif_density with
    | some xy =>
      let u := info.jfif_unit.getD 0
      if u = 1 then (some xy.1, some xy.2)
      else if u = 2 then (some (xy.1 * 2.54), some (xy.2 * 2.54))
      else resolutionFallback info
    | none => resolutionFallback info

/-- Embedding of `_describe_color_depth` (src/image_metadata.py lines 163-170).
Python truthiness: an empty mode string falls back to "unknown", a zero band
count falls back to 1. -/
def _describe_color_depth (img : PILImage) : String :=
  let mode := if img.mode = "" then "unknown" else img.mode
  let bands := if img.bands = 0 then 1 else img.bands
  let bitsPerChannel :=
    match img.bits with
    | some b => b
    | none => (modeDefaultBits mode).getD 8
  let totalBits := bitsPerChannel * bands
  toString totalBits ++ " бит (" ++ mode ++ ")"

/-- Embedding of `_detect_compression` (src/image_metadata.py lines 173-181). -/
def _detect_compression (img : PILImage) : String :=
  match img.info.compression with
  | some c => c
  | none =>
    match img.info.compression_type with
    | some c => c
    | none =>
      let fmt := toUpperStr (img.format.getD "")
      (compressionHint fmt).getD "н/д"

/-- The extension-derived format fallback of `_read_image_info`:
`SUPPORTED_EXTENSIONS.get(path.suffix.lower(), "Unknown")`. -/
def extFallbackFormat (path : String) : String :=
  (extLookup (toLowerStr (suffixOf (pathName path)))).getD "Unknown"

/-- Embedding of `_read_image_info` (src/image_metadata.py lines 115-135).
The function is total: an opener failure (either of the two caught exception
classes) yields `none`, the skip result. -/
def _read_image_info (opener : String → Except OpenError PILImage)
    (path : String) : Option ImageInfo :=
  match opener path with
  | Except.error _ => none
  | Except.ok img =>
    some {
      path := path
      name := pathName path
      format :=
        (match img.format with
         | some f => if f = "" then extFallbackFormat path else f
         | none => extFallbackFormat path)
      width_px := img.size.1
      height_px := img.size.2
      dpi_x := (_extract_dpi img).1
      dpi_y := (_extract_dpi img).2
      color_depth := _describe_color_depth img
      compression := _detect_compression img }

/-- A filesystem entry as `os.scandir` classifies it in the walker:
`entry.is_symlink()` is true exactly for `symlink` nodes (whatever they point
to), `entry.is_dir(follow_symlinks=False)` exactly for `dir` nodes, and
`entry.is_file(follow_symlinks=False)` exactly for `file` nodes. A directory's
`perm` flag records whether `os.scandir` succeeds on it; `perm = false` models
PermissionError on enumeration. -/
inductive FSNode where
  | file (name : String)
  | symlink (name : String)
  | dir (name : String) (perm : Bool) (children : List FSNode)

mutual

def FSNode.size : FSNode → Nat
  | FSNode.file _ => 1
  | FSNode.symlink _ => 1
  | FSNode.dir _ _ cs => 1 + FSNode.sizeL cs

def FSNode.sizeL : List FSNode → Nat
  | [] => 0
  | n :: ns => FSNode.size n + FSNode.sizeL ns

end

/-- One element of the walker's explicit stack: the directory's path, its
permission flag, and its children. Only directories are ever pushed. -/
abbrev StackE : Type := String × Bool × List FSNode

def stackMeasure : List StackE → Nat
  | [] => 0
  | e :: rest => FSNode.sizeL e.2.2 + stackMeasure rest + 1

/-- The walker's candidate filter: `Path(entry.name).suffix.lower()` is a key
of SUPPORTED_EXTENSIONS. -/
def isSupportedName (name : String) : Bool :=
  (extLookup (toLowerStr (suffixOf name))).isSome

/-- The file paths yielded while scanning one directory's entries, in entry
order: plain files whose lower-cased suffix is supported. -/
def yieldsOf (path : String) : List FSNode → List String
  | [] => []
  | FSNode.file name :: rest =>
    if isSupportedName name then (path ++ "/" ++ name) :: yieldsOf path rest
    else yieldsOf path rest
  | FSNode.symlink _ :: rest => yieldsOf path rest
  | FSNode.dir _ _ _ :: rest => yieldsOf path rest

/-- The subdirectories appended to the stack while scanning one directory's
entries, in entry order. -/
def dirsOf (path : String) : List FSNode → List StackE
  | [] => []
  | FSNode.dir name perm cs :: rest => (path ++ "/" ++ name, perm, cs) :: dirsOf path rest
  | FSNode.file _ :: rest => dirsOf path rest
  | FSNode.symlink _ :: rest => dirsOf path rest

/-- The explicit-stack loop of `_iter_supported_files`: pop the top directory;
if its enumeration is permitted, yield its supported files (entry order) and
push its subdirectories (so the last one listed is processed first), else skip
it silently (the `except PermissionError: continue` branch). The fuel argument
only forces termination; `stackMeasure` fuel is always enough. -/
def walkFuel (recursive : Bool) : Nat → List StackE → List String
  | _, [] => []
  | 0, _ :: _ => []
  | fuel + 1, (path, perm, children) :: rest =>
    if perm then
      yieldsOf path children ++
        walkFuel recursive fuel
          ((if recursive then (dirsOf path children).reverse else []) ++ rest)
    else
      walkFuel recursive fuel rest

/-- Embedding of `_iter_supported_files` (src/image_metadata.py lines 96-112),
run to exhaustion: the full list of candidate paths the generator would yield,
starting from the root directory's contents. -/
def _iter_supported_files (rootPath : String) (rootPerm : Bool)
    (children : List FSNode) (recursive : Bool) : List String :=
  walkFuel recursive (stackMeasure [(rootPath, rootPerm, children)])
    [(rootPath, rootPerm, children)]

/-- What the root path resolves to after `Path(directory).expanduser()`:
missing, existing but not a directory, or a directory (with its permission
flag and contents). -/
inductive RootFS where
  | missing
  | nonDir
  | dir (perm : Bool) (children : List FSNode)

/-- The two scan-fatal exceptions of `scan_directory`: FileNotFoundError and
NotADirectoryError. -/
inductive ScanError where
  | fileNotFoundError
  | notADirectoryError
  deriving DecidableEq

/-- The accumulation loop of `scan_directory` (lines 86-91): for each candidate
path, append the extracted record if any, then stop as soon as
`len(result) >= target_limit`. -/
def scanLoop (reader : String → Option ImageInfo) (targetLimit : Int) :
    List String → List ImageInfo → List ImageInfo
  | [], acc => acc
  | p :: ps, acc =>
    let acc' :=
      match reader p with
      | some info => acc ++ [info]
      | none => acc
    if targetLimit ≤ (acc'.length : Int) then acc' else scanLoop reader targetLimit ps acc'

/-- Embedding of `scan_directory` (src/image_metadata.py lines 74-93).
`rootPath` stands for the already user-expanded directory string; `root`
describes what that path resolves to. The Python expression
`min(limit or MAX_FILES, MAX_FILES)` reads a limit of None — and, by falsiness,
a limit of 0 — as MAX_FILES. -/
def scan_directory (opener : String → Except OpenError PILImage)
    (rootPath : String) (root : RootFS) (recursive : Bool) (limit : Option Int) :
    Except ScanError (List ImageInfo) :=
  match root with
  | RootFS.missing => Except.error ScanError.fileNotFoundError
  | RootFS.nonDir => Except.error ScanError.notADirectoryError
  | RootFS.dir perm children =>
    let targetLimit : Int :=
      min (match limit with
           | none => MAX_FILES
           | some k => if k = 0 then MAX_FILES else k) MAX_FILES
    Except.ok (scanLoop (_read_image_info opener) targetLimit
      (_iter_supported_files rootPath perm children recursive) [])

mutual

/-- Symlink removal for one entry: a symlink disappears, a file stays, a
directory keeps its name and permission with its children stripped. Used to
state that the walker never follows, pushes or yields symlinks. -/
def stripNode : FSNode → List FSNode
  | FSNode.file n => [FSNode.file n]
  | FSNode.symlink _ => []
  | FSNode.dir n p cs => [FSNode.dir n p (stripL cs)]

/-- Removes every symlink entry from a filesystem forest, recursively. -/
def stripL : List FSNode → List FSNode
  | [] => []
  | n :: rest => stripNode n ++ stripL rest

end

/-- Stripping symlinks from a stack entry's children. -/
def stripE (e : StackE) : StackE := (e.1, e.2.1, stripL e.2.2)

/-- An info dictionary with none of the six keys set. -/
def emptyInfo : PILInfo :=
  { dpi := none, jfif_density := none, jfif_unit := none, resolution := none,
    compression := none, compression_type := none }

/-- A well-formed 10×10 RGB PNG header as PIL would present it. -/
def demoImg : PILImage :=
  { size := (10, 10), info := emptyInfo, mode := "RGB", bands := 3, bits := none,
    format := some "PNG" }

/-- An opener for which every path decodes to demoImg. -/
def demoOpener : String → Except OpenError PILImage := fun _ => Except.ok demoImg

/-- The record `_read_image_info` builds from demoImg at path "root/a.png". -/
def demoRecord : ImageInfo :=
  { path := "root/a.png", name := "a.png", format := "PNG", width_px := 10,
    height_px := 10, dpi_x := none, dpi_y := none,
    color_depth := "24 бит (RGB)", compression := "Deflate" }

/-- A header reporting zero pixel dimensions (the code performs no dimension
check of its own). -/
def zeroImg : PILImage :=
  { size := (0, 0), info := emptyInfo, mode := "RGB", bands := 3, bits := none,
    format := some "PNG" }

def zeroOpener : String → Except OpenError PILImage := fun _ => Except.ok zeroImg

/-- The record built from zeroImg at path "root/a.png". -/
def zeroRecord : ImageInfo :=
  { path := "root/a.png", name := "a.png", format := "PNG", width_px := 0,
    height_px := 0, dpi_x := none, dpi_y := none,
    color_depth := "24 бит (RGB)", compression := "Deflate" }

/-- An opener for which every open raises OSError. -/
def failOpener : String → Except OpenError PILImage := fun _ => Except.error OpenError.osError

theorem sizeL_append (a b : List FSNode) :
    FSNode.sizeL (a ++ b) = FSNode.sizeL a + FSNode.sizeL b := by
  induction a with
  | nil => simp [FSNode.sizeL]
  | cons n rest ih => simp [FSNode.sizeL, ih]; omega

theorem stackMeasure_append (a b : List StackE) :
    stackMeasure (a ++ b) = stackMeasure a + stackMeasure b := by
  induction a with
  | nil => simp [stackMeasure]
  | cons e rest ih => simp [stackMeasure, ih]; omega

theorem stackMeasure_reverse (a : List StackE) :
    stackMeasure a.reverse = stackMeasure a := by
  induction a with
  | nil => rfl
  | cons e rest ih =>
    simp [List.reverse_cons, stackMeasure_append, stackMeasure, ih]; omega

theorem stackMeasure_dirsOf (path : String) (cs : List FSNode) :
    stackMeasure (dirsOf path cs) ≤ FSNode.sizeL cs := by
  induction cs with
  | nil => simp [dirsOf, FSNode.sizeL, stackMeasure]
  | cons n rest ih =>
    cases n with
    | file nm => simp only [dirsOf, FSNode.sizeL, FSNode.size]; omega
    | symlink nm => simp only [dirsOf, FSNode.sizeL, FSNode.size]; omega
    | dir nm perm gcs =>
      simp only [dirsOf, stackMeasure, FSNode.sizeL, FSNode.size]; omega

/-- Measure bound for one step of the walker loop: whatever gets pushed weighs
no more than the popped directory's children. -/
theorem stackMeasure_step (recursive : Bool) (path : String) (children : List FSNode)
    (rest : List StackE) :
    stackMeasure ((if recursive then (dirsOf path children).reverse else []) ++ rest) ≤
      FSNode.sizeL children + stackMeasure rest := by
  cases recursive with
  | false => simp [stackMeasure]
  | true =>
    rw [if_pos rfl, stackMeasure_append, stackMeasure_reverse]
    have := stackMeasure_dirsOf path children
    omega

/-- The fuel value of `walkFuel` is irrelevant once it is at least the stack
measure: the loop is then run to completion. -/
theorem walkFuel_congr (recursive : Bool) :
    ∀ (f g : Nat) (st : List StackE), stackMeasure st ≤ f → stackMeasure st ≤ g →
      walkFuel recursive f st = walkFuel recursive g st := by
  intro f
  induction f with
  | zero =>
    intro g st hf _
    cases st with
    | nil => cases g <;> rfl
    | cons e rest => simp [stackMeasure] at hf
  | succ f ih =>
    intro g st hf hg
    cases st with
    | nil => cases g <;> rfl
    | cons e rest =>
      obtain ⟨path, perm, children⟩ := e
      cases g with
      | zero => simp [stackMeasure] at hg
      | succ g =>
        simp only [stackMeasure] at hf hg
        simp only [walkFuel]
        have hstep := stackMeasure_step recursive path children rest
        cases perm with
        | false =>
          simp only [Bool.false_eq_true, if_false]
          exact ih g rest (by omega) (by omega)
        | true =>
          simp only [if_true]
          congr 1
          exact ih g _ (by omega) (by omega)

theorem stripL_append (a b : List FSNode) :
    stripL (a ++ b) = stripL a ++ stripL b := by
  induction a with
  | nil => simp [stripL]
  | cons n rest ih => simp [stripL, ih]

theorem yieldsOf_stripL (path : String) (cs : List FSNode) :
    yieldsOf path (stripL cs) = yieldsOf path cs := by
  induction cs with
  | nil => rfl
  | cons n rest ih =>
    cases n with
    | file nm => simp [stripL, stripNode, yieldsOf, ih]
    | symlink nm => simp [stripL, stripNode, yieldsOf, ih]
    | dir nm perm gcs => simp [stripL, stripNode, yieldsOf, ih]

theorem dirsOf_stripL (path : String) (cs : List FSNode) :
    dirsOf path (stripL cs) = (dirsOf path cs).map stripE := by
  induction cs with
  | nil => rfl
  | cons n rest ih =>
    cases n with
    | file nm => simp [stripL, stripNode, dirsOf, ih]
    | symlink nm => simp [stripL, stripNode, dirsOf, ih]
    | dir nm perm gcs => simp [stripL, stripNode, dirsOf, ih, stripE]

mutual

theorem sizeL_stripNode_le (n : FSNode) :
    FSNode.sizeL (stripNode n) ≤ FSNode.size n := by
  cases n with
  | file nm => simp [stripNode, FSNode.sizeL, FSNode.size]
  | symlink nm => simp [stripNode, FSNode.sizeL, FSNode.size]
  | dir nm perm cs =>
    have h := sizeL_stripL_le cs
    simp only [stripNode, FSNode.sizeL, FSNode.size]
    omega

theorem sizeL_stripL_le (cs : List FSNode) :
    FSNode.sizeL (stripL cs) ≤ FSNode.sizeL cs := by
  cases cs with
  | nil => simp [stripL]
  | cons n rest =>
    have h1 := sizeL_stripNode_le n
    have h2 := sizeL_stripL_le rest
    simp only [stripL, FSNode.sizeL, sizeL_append]
    omega

end

theorem stackMeasure_map_stripE (st : List StackE) :
    stackMeasure (st.map stripE) ≤ stackMeasure st := by
  induction st with
  | nil => simp
  | cons e rest ih =>
    have := sizeL_stripL_le e.2.2
    simp only [List.map_cons, stackMeasure, stripE]
    omega

/-- Symlink entries contribute nothing to the walk: a stack whose every entry
had its symlinks (recursively) removed walks to the same list of candidate
paths. -/
theorem walkFuel_strip (recursive : Bool) :
    ∀ (fuel : Nat) (st : List StackE), stackMeasure st ≤ fuel →
      walkFuel recursive fuel (st.map stripE) = walkFuel recursive fuel st := by
  intro fuel
  induction fuel with
  | zero =>
    intro st h
    cases st with
    | nil => rfl
    | cons e rest => simp [stackMeasure] at h
  | succ fuel ih =>
    intro st h
    cases st with
    | nil => rfl
    | cons e rest =>
      obtain ⟨path, perm, children⟩ := e
      simp only [stackMeasure] at h
      have hstep := stackMeasure_step recursive path children rest
      simp only [List.map_cons, stripE, walkFuel]
      cases perm with
      | false =>
        simp only [Bool.false_eq_true, if_false]
        exact ih rest (by omega)
      | true =>
        simp only [if_true]
        rw [yieldsOf_stripL]
        congr 1
        rw [dirsOf_stripL, ← List.map_reverse]
        have hmaps :
            (if recursive then ((dirsOf path children).reverse.map stripE) else []) ++
              rest.map stripE =
            ((if recursive then (dirsOf path children).reverse else []) ++ rest).map
              stripE := by
          cases recursive <;> simp
        rw [hmaps]
        exact ih _ (by omega)

/-- A directory whose enumeration raises PermissionError contributes nothing
to the walk, wherever it sits on the stack. -/
theorem walkFuel_drop_noperm (recursive : Bool) :
    ∀ (fuel : Nat) (st1 st2 : List StackE) (q : String) (gs : List FSNode),
      stackMeasure (st1 ++ (q, false, gs) :: st2) ≤ fuel →
      walkFuel recursive fuel (st1 ++ (q, false, gs) :: st2) =
        walkFuel recursive fuel (st1 ++ st2) := by
  intro fuel
  induction fuel with
  | zero =>
    intro st1 st2 q gs h
    rw [stackMeasure_append] at h
    simp [stackMeasure] at h
  | succ fuel ih =>
    intro st1 st2 q gs h
    cases st1 with
    | nil =>
      simp only [List.nil_append] at h ⊢
      simp only [walkFuel, Bool.false_eq_true, if_false]
      simp only [stackMeasure] at h
      exact walkFuel_congr recursive fuel (fuel + 1) st2 (by omega) (by omega)
    | cons e rest =>
      obtain ⟨path, perm, children⟩ := e
      simp only [List.cons_append, List.append_eq, walkFuel]
      simp only [List.cons_append, List.append_eq, stackMeasure] at h
      have hstep := stackMeasure_step recursive path children (rest ++ (q, false, gs) :: st2)
      cases perm with
      | false =>
        simp only [Bool.false_eq_true, if_false]
        exact ih rest st2 q gs (by omega)
      | true =>
        simp only [if_true]
        congr 1
        rw [show
            (if recursive then (dirsOf path children).reverse else []) ++
              (rest ++ (q, false, gs) :: st2) =
            ((if recursive then (dirsOf path children).reverse else []) ++ rest) ++
              (q, false, gs) :: st2 from (List.append_assoc _ _ _).symm,
          show
            (if recursive then (dirsOf path children).reverse else []) ++ (rest ++ st2) =
            ((if recursive then (dirsOf path children).reverse else []) ++ rest) ++ st2
            from (List.append_assoc _ _ _).symm]
        apply ih
        rw [List.append_assoc]
        omega

/-- Exact length of the accumulation loop: starting strictly below the target,
it collects one record per successful extraction until the target is reached,
so the final length is the minimum of (collected so far + successes ahead) and
the target. -/
theorem scanLoop_length_eq (reader : String → Option ImageInfo) (target : Int) :
    ∀ (ps : List String) (acc : List ImageInfo), (acc.length : Int) < target →
      ((scanLoop reader target ps acc).length : Int) =
        min ((acc.length : Int) + (ps.countP (fun p => (reader p).isSome) : Int)) target := by
  intro ps
  induction ps with
  | nil =>
    intro acc h
    simp only [scanLoop, List.countP_nil]
    omega
  | cons p ps ih =>
    intro acc h
    simp only [scanLoop, List.countP_cons]
    cases hr : reader p with
    | none =>
      simp only [hr, Option.isSome_none, Bool.false_eq_true, if_false]
      rw [if_neg (by omega)]
      rw [ih acc h]
      push_cast
      omega
    | some info =>
      simp only [hr, Option.isSome_some, if_true]
      by_cases hcap : target ≤ ((acc ++ [info]).length : Int)
      · rw [if_pos hcap]
        simp only [List.length_append, List.length_cons, List.length_nil] at hcap ⊢
        push_cast at hcap ⊢
        omega
      · rw [if_neg hcap]
        have hlen : (((acc ++ [info]).length : Int)) = (acc.length : Int) + 1 := by
          simp [List.length_append]
        rw [ih (acc ++ [info]) (by omega)]
        rw [hlen]
        push_cast
        omega

/-- The loop never exceeds a positive target. -/
theorem scanLoop_length_le (reader : String → Option ImageInfo) (target : Int)
    (ps : List String) (acc : List ImageInfo) (h : (acc.length : Int) < target) :
    ((scanLoop reader target ps acc).length : Int) ≤ target := by
  rw [scanLoop_length_eq reader target ps acc h]
  omega

/-- Unfolding of scan_directory on a directory root with an explicit limit. -/
theorem scan_dir_some (opener : String → Except OpenError PILImage)
    (rootPath : String) (perm : Bool) (children : List FSNode) (recursive : Bool)
    (k : Int) :
    scan_directory opener rootPath (RootFS.dir perm children) recursive (some k) =
      Except.ok (scanLoop (_read_image_info opener)
        (min (if k = 0 then MAX_FILES else k) MAX_FILES)
        (_iter_supported_files rootPath perm children recursive) []) := rfl

/-- Unfolding of scan_directory on a directory root with an omitted limit. -/
theorem scan_dir_none (opener : String → Except OpenError PILImage)
    (rootPath : String) (perm : Bool) (children : List FSNode) (recursive : Bool) :
    scan_directory opener rootPath (RootFS.dir perm children) recursive none =
      Except.ok (scanLoop (_read_image_info opener) (min MAX_FILES MAX_FILES)
        (_iter_supported_files rootPath perm children recursive) []) := rfl

/-- C1 counterexample: the claim fails at requested limit 0. Python's
`min(limit or MAX_FILES, MAX_FILES)` treats a limit of 0 as absent (0 is
falsy), so scanning a directory holding one readable supported image with
requested limit 0 returns one record, exceeding min(0, 100000) = 0. -/
theorem c1_counterexample :
    scan_directory demoOpener "root" (RootFS.dir true [FSNode.file "a.png"]) true
        (some 0) = Except.ok [demoRecord] ∧
      ¬ ((([demoRecord] : List ImageInfo).length : Int) ≤ min 0 100000) :=
  ⟨rfl, by decide⟩

/-- C1 (amended): for every requested limit k ≥ 1, a normally returning scan
yields at most min(k, 100000) records; a requested limit of 0 — like an
omitted limit — is treated as absent, and the hard cap 100000 bounds the
result instead. -/
theorem c1_scan_length_bound (opener : String → Except OpenError PILImage)
    (rootPath : String) (root : RootFS) (recursive : Bool) :
    (∀ (k : Int) (l : List ImageInfo), 1 ≤ k →
        scan_directory opener rootPath root recursive (some k) = Except.ok l →
        (l.length : Int) ≤ min k 100000) ∧
    (∀ l : List ImageInfo,
        scan_directory opener rootPath root recursive none = Except.ok l →
        (l.length : Int) ≤ 100000) ∧
    (∀ l : List ImageInfo,
        scan_directory opener rootPath root recursive (some 0) = Except.ok l →
        (l.length : Int) ≤ 100000) := by
  refine ⟨?_, ?_, ?_⟩
  · intro k l hk hscan
    cases root with
    | missing => simp [scan_directory] at hscan
    | nonDir => simp [scan_directory] at hscan
    | dir perm children =>
      rw [scan_dir_some] at hscan
      injection hscan with hscan
      rw [← hscan, if_neg (by omega : ¬ k = 0)]
      have h0 : ((([] : List ImageInfo).length : Int)) < min k MAX_FILES := by
        simp only [List.length_nil, Nat.cast_zero, MAX_FILES]
        omega
      exact scanLoop_length_le _ _ _ _ h0
  · intro l hscan
    cases root with
    | missing => simp [scan_directory] at hscan
    | nonDir => simp [scan_directory] at hscan
    | dir perm children =>
      rw [scan_dir_none] at hscan
      injection hscan with hscan
      rw [← hscan]
      have h0 : ((([] : List ImageInfo).length : Int)) < min MAX_FILES MAX_FILES := by
        simp only [List.length_nil, Nat.cast_zero, MAX_FILES]
        omega
      have hle := scanLoop_length_le (_read_image_info opener) (min MAX_FILES MAX_FILES)
        (_iter_supported_files rootPath perm children recursive) [] h0
      exact le_trans hle (by decide)
  · intro l hscan
    cases root with
    | missing => simp [scan_directory] at hscan
    | nonDir => simp [scan_directory] at hscan
    | dir perm children =>
      rw [scan_dir_some] at hscan
      injection hscan with hscan
      rw [← hscan, if_pos (rfl : (0 : Int) = 0)]
      have h0 : ((([] : List ImageInfo).length : Int)) < min MAX_FILES MAX_FILES := by
        simp only [List.length_nil, Nat.cast_zero, MAX_FILES]
        omega
      have hle := scanLoop_length_le (_read_image_info opener) (min MAX_FILES MAX_FILES)
        (_iter_supported_files rootPath perm children recursive) [] h0
      exact le_trans hle (by decide)

/-- Witness for c1_scan_length_bound at a concrete scan with limit 1. -/
theorem c1_scan_length_bound_witness :
    scan_directory demoOpener "root" (RootFS.dir true [FSNode.file "a.png"]) true
        (some 1) = Except.ok [demoRecord] ∧
      (([demoRecord] : List ImageInfo).length : Int) ≤ min 1 100000 :=
  ⟨rfl, (c1_scan_length_bound demoOpener "root"
      (RootFS.dir true [FSNode.file "a.png"]) true).1 1 [demoRecord]
    (by decide) rfl⟩

/-- C2: a per-file decode failure of either caught exception class
(UnidentifiedImageError, or OSError — which subsumes I/O and permission
errors on the specific file) yields the skip result `none`, and the
accumulation loop over the remaining candidate files continues exactly as if
the failing file were not there. Totality of `_read_image_info` models
"never raises past its boundary". -/
theorem c2_read_error_skips (opener : String → Except OpenError PILImage)
    (p : String) (e : OpenError) (h : opener p = Except.error e) :
    _read_image_info opener p = none ∧
    ∀ (target : Int) (ps : List String) (acc : List ImageInfo),
      (acc.length : Int) < target →
      scanLoop (_read_image_info opener) target (p :: ps) acc =
        scanLoop (_read_image_info opener) target ps acc := by
  have hnone : _read_image_info opener p = none := by
    simp [_read_image_info, h]
  refine ⟨hnone, ?_⟩
  intro target ps acc hlt
  simp only [scanLoop, hnone]
  rw [if_neg (by omega)]

/-- Witness for c2_read_error_skips on a concrete failing opener. -/
theorem c2_read_error_skips_witness :
    _read_image_info failOpener "x.png" = none ∧
      scanLoop (_read_image_info failOpener) 5 ["x.png"] [] =
        scanLoop (_read_image_info failOpener) 5 [] [] := by
  have h := c2_read_error_skips failOpener "x.png" OpenError.osError rfl
  exact ⟨h.1, h.2 5 [] [] (by decide)⟩

/-- C3 counterexample: the code copies the decoder-reported dimensions into the
record without any positivity check, so an image whose header reports size
(0, 0) is admitted to the scan result with width_px = 0. -/
theorem c3_counterexample :
    scan_directory zeroOpener "root" (RootFS.dir true [FSNode.file "a.png"]) true
        none = Except.ok [zeroRecord] ∧ ¬ (0 < zeroRecord.width_px) :=
  ⟨rfl, by decide⟩

/-- C3 (amended): every admitted record carries exactly the decoder-reported
pixel dimensions — the code adds no check of its own — so width_px and
height_px are positive precisely when the decoder reports positive
dimensions. -/
theorem c3_dims_verbatim (opener : String → Except OpenError PILImage)
    (p : String) (img : PILImage) (h : opener p = Except.ok img) :
    ∃ r, _read_image_info opener p = some r ∧ r.width_px = img.size.1 ∧
      r.height_px = img.size.2 ∧ (0 < img.size.1 → 0 < r.width_px) ∧
      (0 < img.size.2 → 0 < r.height_px) := by
  simp only [_read_image_info, h]
  exact ⟨_, rfl, rfl, rfl, fun hp => hp, fun hp => hp⟩

/-- Witness for c3_dims_verbatim at a concrete well-formed image. -/
theorem c3_dims_verbatim_witness :
    0 < demoImg.size.1 ∧
      ∃ r, _read_image_info demoOpener "x.png" = some r ∧ 0 < r.width_px := by
  obtain ⟨r, hr, hw, -, hpos, -⟩ := c3_dims_verbatim demoOpener "x.png" demoImg rfl
  exact ⟨by decide, r, hr, hpos (by decide)⟩

theorem walkFuel_nil (recursive : Bool) (fuel : Nat) :
    walkFuel recursive fuel [] = [] := by
  cases fuel <;> rfl

/-- One-step unfolding of the walker from a root directory. -/
theorem iter_unfold (recursive : Bool) (p : String) (perm : Bool)
    (cs : List FSNode) :
    _iter_supported_files p perm cs recursive =
      if perm then
        yieldsOf p cs ++
          walkFuel recursive (FSNode.sizeL cs + 0)
            ((if recursive then (dirsOf p cs).reverse else []) ++ [])
      else walkFuel recursive (FSNode.sizeL cs + 0) [] := rfl

theorem yieldsOf_append (p : String) (a b : List FSNode) :
    yieldsOf p (a ++ b) = yieldsOf p a ++ yieldsOf p b := by
  induction a with
  | nil => simp [yieldsOf]
  | cons n rest ih =>
    cases n with
    | file nm =>
      simp only [List.cons_append, yieldsOf]
      split <;> simp [ih]
    | symlink nm => simp only [List.cons_append, List.append_eq, yieldsOf, ih]
    | dir nm pm gcs => simp only [List.cons_append, List.append_eq, yieldsOf, ih]

theorem dirsOf_append (p : String) (a b : List FSNode) :
    dirsOf p (a ++ b) = dirsOf p a ++ dirsOf p b := by
  induction a with
  | nil => simp [dirsOf]
  | cons n rest ih =>
    cases n with
    | file nm => simp only [List.cons_append, List.append_eq, dirsOf, ih]
    | symlink nm => simp only [List.cons_append, List.append_eq, dirsOf, ih]
    | dir nm pm gcs => simp only [List.cons_append, List.append_eq, dirsOf, ih]

/-- C6: symlink directory entries — whatever they point to, even a
supported-extension file — are never followed, never pushed on the traversal
stack and never yielded: the walk of any directory equals the walk with every
symlink (recursively) removed, and inserting a symlink entry anywhere among a
directory's children leaves the candidate list unchanged. -/
theorem c6_symlinks_invisible (recursive : Bool) (rootPath nm : String)
    (perm : Bool) (cs cs1 cs2 : List FSNode) :
    _iter_supported_files rootPath perm (stripL cs) recursive =
      _iter_supported_files rootPath perm cs recursive ∧
    _iter_supported_files rootPath perm (cs1 ++ FSNode.symlink nm :: cs2)
        recursive =
      _iter_supported_files rootPath perm (cs1 ++ cs2) recursive := by
  have key : ∀ cs' : List FSNode,
      _iter_supported_files rootPath perm (stripL cs') recursive =
        _iter_supported_files rootPath perm cs' recursive := by
    intro cs'
    show walkFuel recursive (stackMeasure [(rootPath, perm, stripL cs')])
        [(rootPath, perm, stripL cs')] = _
    have hm : stackMeasure [(rootPath, perm, stripL cs')] ≤
        stackMeasure [(rootPath, perm, cs')] := by
      simp only [stackMeasure]
      have := sizeL_stripL_le cs'
      omega
    rw [walkFuel_congr recursive (stackMeasure [(rootPath, perm, stripL cs')])
      (stackMeasure [(rootPath, perm, cs')]) [(rootPath, perm, stripL cs')]
      le_rfl hm]
    have hmap : ([(rootPath, perm, stripL cs')] : List StackE) =
        List.map stripE [(rootPath, perm, cs')] := by
      simp [stripE]
    rw [hmap, walkFuel_strip recursive (stackMeasure [(rootPath, perm, cs')])
      [(rootPath, perm, cs')] le_rfl]
    rfl
  refine ⟨key cs, ?_⟩
  have h2 : stripL (cs1 ++ FSNode.symlink nm :: cs2) = stripL (cs1 ++ cs2) := by
    rw [stripL_append, stripL_append]
    simp [stripL, stripNode]
  rw [← key (cs1 ++ FSNode.symlink nm :: cs2), h2, key (cs1 ++ cs2)]

/-- C7: a subdirectory whose enumeration raises PermissionError is skipped
silently — the walk and the whole scan return exactly what they return with
that subtree absent, so candidates in all sibling directories are still
discovered and processed and no error propagates. -/
theorem c7_perm_subtree_skipped (recursive : Bool) (rootPath nm : String)
    (perm : Bool) (cs1 cs2 gcs : List FSNode)
    (opener : String → Except OpenError PILImage) (limit : Option Int) :
    _iter_supported_files rootPath perm
        (cs1 ++ FSNode.dir nm false gcs :: cs2) recursive =
      _iter_supported_files rootPath perm (cs1 ++ cs2) recursive ∧
    scan_directory opener rootPath
        (RootFS.dir perm (cs1 ++ FSNode.dir nm false gcs :: cs2)) recursive limit =
      scan_directory opener rootPath (RootFS.dir perm (cs1 ++ cs2)) recursive
        limit := by
  have hd1 := stackMeasure_dirsOf rootPath cs1
  have hd2 := stackMeasure_dirsOf rootPath cs2
  have hwalk : _iter_supported_files rootPath perm
      (cs1 ++ FSNode.dir nm false gcs :: cs2) recursive =
      _iter_supported_files rootPath perm (cs1 ++ cs2) recursive := by
    rw [iter_unfold, iter_unfold]
    cases perm with
    | false =>
      simp only [Bool.false_eq_true, if_false, walkFuel_nil]
    | true =>
      simp only [if_true, List.append_nil]
      have hy : yieldsOf rootPath (cs1 ++ FSNode.dir nm false gcs :: cs2) =
          yieldsOf rootPath (cs1 ++ cs2) := by
        rw [yieldsOf_append, yieldsOf_append]
        simp only [yieldsOf]
      rw [hy]
      congr 1
      cases recursive with
      | false => simp only [Bool.false_eq_true, if_false, walkFuel_nil]
      | true =>
        simp only [if_true]
        have hdA : dirsOf rootPath (cs1 ++ FSNode.dir nm false gcs :: cs2) =
            dirsOf rootPath cs1 ++
              (rootPath ++ "/" ++ nm, false, gcs) :: dirsOf rootPath cs2 := by
          rw [dirsOf_append]
          simp only [dirsOf]
        have hdB : dirsOf rootPath (cs1 ++ cs2) =
            dirsOf rootPath cs1 ++ dirsOf rootPath cs2 := dirsOf_append _ _ _
        rw [hdA, hdB, List.reverse_append, List.reverse_append,
          List.reverse_cons, List.append_assoc, List.singleton_append]
        have hm1 : stackMeasure ((dirsOf rootPath cs2).reverse ++
            (rootPath ++ "/" ++ nm, false, gcs) :: (dirsOf rootPath cs1).reverse) ≤
            FSNode.sizeL (cs1 ++ FSNode.dir nm false gcs :: cs2) + 0 := by
          rw [stackMeasure_append, sizeL_append]
          simp only [stackMeasure, stackMeasure_reverse, FSNode.sizeL, FSNode.size]
          omega
        have hm2 : stackMeasure ((dirsOf rootPath cs2).reverse ++
            (dirsOf rootPath cs1).reverse) ≤
            FSNode.sizeL (cs1 ++ FSNode.dir nm false gcs :: cs2) + 0 := by
          rw [stackMeasure_append, stackMeasure_reverse, stackMeasure_reverse,
            sizeL_append]
          simp only [FSNode.sizeL, FSNode.size]
          omega
        have hm3 : stackMeasure ((dirsOf rootPath cs2).reverse ++
            (dirsOf rootPath cs1).reverse) ≤ FSNode.sizeL (cs1 ++ cs2) + 0 := by
          rw [stackMeasure_append, stackMeasure_reverse, stackMeasure_reverse,
            sizeL_append]
          omega
        rw [walkFuel_drop_noperm true _ (dirsOf rootPath cs2).reverse
          (dirsOf rootPath cs1).reverse (rootPath ++ "/" ++ nm) gcs hm1]
        exact walkFuel_congr true _ _ _ hm2 hm3
  refine ⟨hwalk, ?_⟩
  cases limit with
  | none => rw [scan_dir_none, scan_dir_none, hwalk]
  | some k => rw [scan_dir_some, scan_dir_some, hwalk]

/-- C5: resolution extraction follows the priority cascade, first match wins:
an explicit "dpi" tag (scalar applied to both axes, or tuple with the second
axis defaulting to the first); else a "jfif_density" tag whose unit code 1 is
used as-is and unit code 2 is multiplied by 2.54 on both axes, any other unit
code yielding nothing from that tag; else a generic "resolution" tag with the
same broadcast rule; and with none of these both axes are absent (None), a
state distinct from (0, 0). -/
theorem c5_dpi_cascade (img : PILImage) :
    (∀ x, img.info.dpi = some (ResVal.scalar x) →
        _extract_dpi img = (some x, some x)) ∧
    (∀ x rest, img.info.dpi = some (ResVal.tup x rest) →
        _extract_dpi img = (some x, some (rest.headD x))) ∧
    (∀ x y, img.info.dpi = none → img.info.jfif_density = some (x, y) →
        img.info.jfif_unit.getD 0 = 1 → _extract_dpi img = (some x, some y)) ∧
    (∀ x y, img.info.dpi = none → img.info.jfif_density = some (x, y) →
        img.info.jfif_unit.getD 0 = 2 →
        _extract_dpi img = (some (x * 2.54), some (y * 2.54))) ∧
    (img.info.dpi = none → img.info.jfif_density = none →
        _extract_dpi img = resolutionFallback img.info) ∧
    (∀ xy, img.info.dpi = none → img.info.jfif_density = some xy →
        img.info.jfif_unit.getD 0 ≠ 1 → img.info.jfif_unit.getD 0 ≠ 2 →
        _extract_dpi img = resolutionFallback img.info) ∧
    (∀ x, img.info.resolution = some (ResVal.scalar x) →
        resolutionFallback img.info = (some x, some x)) ∧
    (∀ x rest, img.info.resolution = some (ResVal.tup x rest) →
        resolutionFallback img.info = (some x, some (rest.headD x))) ∧
    (img.info.resolution = none →
        resolutionFallback img.info = (none, none) ∧
        ((none, none) : Option ℚ × Option ℚ) ≠ (some 0, some 0)) := by
  refine ⟨?_, ?_, ?_, ?_, ?_, ?_, ?_, ?_, ?_⟩
  · intro x h; simp [_extract_dpi, h, broadcastRes]
  · intro x rest h; simp [_extract_dpi, h, broadcastRes]
  · intro x y h1 h2 h3; simp [_extract_dpi, h1, h2, h3]
  · intro x y h1 h2 h3; simp [_extract_dpi, h1, h2, h3]
  · intro h1 h2; simp [_extract_dpi, h1, h2]
  · intro xy h1 h2 h3 h4; simp [_extract_dpi, h1, h2, h3, h4]
  · intro x h; simp [resolutionFallback, h, broadcastRes]
  · intro x rest h; simp [resolutionFallback, h, broadcastRes]
  · intro h; exact ⟨by simp [resolutionFallback, h], by simp⟩

/-- Witness for c5_dpi_cascade: a JFIF density (96, 96) with unit code 2
(dots per centimeter) yields dpi_x = dpi_y = 96 × 2.54 = 243.84. -/
theorem c5_dpi_cascade_witness :
    _extract_dpi
        { size := (10, 10),
          info := { dpi := none, jfif_density := some (96, 96),
                    jfif_unit := some 2, resolution := none,
                    compression := none, compression_type := none },
          mode := "RGB", bands := 3, bits := none, format := some "JPEG" } =
      (some 243.84, some 243.84) := by
  have h := (c5_dpi_cascade
    { size := (10, 10),
      info := { dpi := none, jfif_density := some (96, 96), jfif_unit := some 2,
                resolution := none, compression := none, compression_type := none },
      mode := "RGB", bands := 3, bits := none, format := some "JPEG" }).2.2.2.1
    96 96 rfl rfl (by decide)
  rw [h]
  norm_num

/-- C8: color depth is bits-per-channel (an explicit depth field when the
header exposes one, else the static per-mode table with default 8 for an
unrecognised mode) multiplied by the band count, rendered exactly as
"<total_bits> бит (<mode>)"; an 8-bit-per-channel 3-band mode named "RGB"
yields "24 бит (RGB)". -/
theorem c8_color_depth (img : PILImage) :
    (∀ b, img.bits = some b →
        _describe_color_depth img =
          toString (b * (if img.bands = 0 then 1 else img.bands)) ++ " бит (" ++
            (if img.mode = "" then "unknown" else img.mode) ++ ")") ∧
    (img.bits = none →
        _describe_color_depth img =
          toString
              ((modeDefaultBits (if img.mode = "" then "unknown" else img.mode)).getD 8 *
                (if img.bands = 0 then 1 else img.bands)) ++ " бит (" ++
            (if img.mode = "" then "unknown" else img.mode) ++ ")") ∧
    modeDefaultBits "1" = some 1 ∧ modeDefaultBits "L" = some 8 ∧
    modeDefaultBits "P" = some 8 ∧ modeDefaultBits "RGB" = some 8 ∧
    modeDefaultBits "RGBA" = some 8 ∧ modeDefaultBits "CMYK" = some 8 ∧
    modeDefaultBits "YCbCr" = some 8 ∧ modeDefaultBits "LAB" = some 8 ∧
    modeDefaultBits "HSV" = some 8 ∧ modeDefaultBits "I" = some 16 ∧
    modeDefaultBits "I;16" = some 16 ∧ modeDefaultBits "F" = some 32 ∧
    modeDefaultBits "CMYK;16" = none ∧
    (img.mode = "RGB" → img.bands = 3 → img.bits = none →
        _describe_color_depth img = "24 бит (RGB)") ∧
    (img.mode = "RGB" → img.bands = 3 → img.bits = some 8 →
        _describe_color_depth img = "24 бит (RGB)") := by
  refine ⟨?_, ?_, by decide, by decide, by decide, by decide, by decide, by decide,
    by decide, by decide, by decide, by decide, by decide, by decide, by decide,
    ?_, ?_⟩
  · intro b h; simp [_describe_color_depth, h]
  · intro h; simp [_describe_color_depth, h]
  · intro h1 h2 h3
    simp only [_describe_color_depth, h1, h2, h3]
    decide
  · intro h1 h2 h3
    simp only [_describe_color_depth, h1, h2, h3]
    decide

/-- Witness for c8_color_depth: the RGB instance evaluated on demoImg. -/
theorem c8_color_depth_witness :
    _describe_color_depth demoImg = "24 бит (RGB)" := by
  obtain ⟨-, -, -, -, -, -, -, -, -, -, -, -, -, -, -, hRGB, -⟩ :=
    c8_color_depth demoImg
  exact hRGB rfl rfl rfl

/-- C9: the compression field is the explicit compression tag if present, else
the explicit compression-type tag, else the static per-format hint table
(JPEG, PNG, GIF, BMP, TIFF, PCX), else the sentinel "н/д"; a PNG with no tag
yields "Deflate" and a format outside the table with no tag yields "н/д". -/
theorem c9_compression (img : PILImage) :
    (∀ c, img.info.compression = some c → _detect_compression img = c) ∧
    (∀ c, img.info.compression = none → img.info.compression_type = some c →
        _detect_compression img = c) ∧
    (img.info.compression = none → img.info.compression_type = none →
        _detect_compression img =
          (compressionHint (toUpperStr (img.format.getD ""))).getD "н/д") ∧
    compressionHint "JPEG" = some "JPEG (lossy)" ∧
    compressionHint "PNG" = some "Deflate" ∧
    compressionHint "GIF" = some "LZW" ∧
    compressionHint "BMP" = some "None/RLE" ∧
    compressionHint "TIFF" = some "Depends on tag" ∧
    compressionHint "PCX" = some "RLE" ∧
    (img.info.compression = none → img.info.compression_type = none →
        img.format = some "PNG" → _detect_compression img = "Deflate") ∧
    (img.info.compression = none → img.info.compression_type = none →
        img.format = some "WEBP" → _detect_compression img = "н/д") := by
  refine ⟨?_, ?_, ?_, by decide, by decide, by decide, by decide, by decide,
    by decide, ?_, ?_⟩
  · intro c h; simp [_detect_compression, h]
  · intro c h1 h2; simp [_detect_compression, h1, h2]
  · intro h1 h2; simp [_detect_compression, h1, h2]
  · intro h1 h2 h3
    simp only [_detect_compression, h1, h2, h3]
    decide
  · intro h1 h2 h3
    simp only [_detect_compression, h1, h2, h3]
    decide

/-- Witness for c9_compression: demoImg (a PNG with no compression tags)
falls back to the static hint "Deflate". -/
theorem c9_compression_witness : _detect_compression demoImg = "Deflate" := by
  obtain ⟨-, -, -, -, -, -, -, -, -, hPNG, -⟩ := c9_compression demoImg
  exact hPNG rfl rfl rfl

/-- C4: the scan aborts with the not-found error exactly when the
(user-expanded) root does not exist, with the not-a-directory error exactly
when it exists but is not a directory, and these are the only error outcomes
of the whole call (within the immutable-snapshot filesystem model, every
other failure is contained per-file or per-subtree). -/
theorem c4_fatal_conditions (opener : String → Except OpenError PILImage)
    (rootPath : String) (recursive : Bool) (limit : Option Int) (root : RootFS) :
    (scan_directory opener rootPath root recursive limit =
        Except.error ScanError.fileNotFoundError ↔ root = RootFS.missing) ∧
    (scan_directory opener rootPath root recursive limit =
        Except.error ScanError.notADirectoryError ↔ root = RootFS.nonDir) ∧
    (∀ e, scan_directory opener rootPath root recursive limit = Except.error e →
        root = RootFS.missing ∨ root = RootFS.nonDir) := by
  cases root <;> simp [scan_directory]

/-- Witness for c4_fatal_conditions: both fatal errors realised concretely. -/
theorem c4_fatal_conditions_witness :
    scan_directory demoOpener "p" RootFS.missing true none =
        Except.error ScanError.fileNotFoundError ∧
      scan_directory demoOpener "p" RootFS.nonDir true none =
        Except.error ScanError.notADirectoryError :=
  ⟨(c4_fatal_conditions demoOpener "p" true none RootFS.missing).1.mpr rfl,
   (c4_fatal_conditions demoOpener "p" true none RootFS.nonDir).2.1.mpr rfl⟩

/-- C10: a requested limit of 0 — like an omitted limit — is treated as absent
(`limit or MAX_FILES` reads 0 as falsy) and the hard cap 100000 becomes the
effective limit; for a valid root directory whose walk finds n readable
supported images, the scan returns exactly min(n, 100000) records, and in
particular a non-empty list when n ≥ 1. -/
theorem c10_limit_zero_absent (opener : String → Except OpenError PILImage)
    (rootPath : String) (perm : Bool) (children : List FSNode)
    (recursive : Bool) :
    scan_directory opener rootPath (RootFS.dir perm children) recursive
        (some 0) =
      scan_directory opener rootPath (RootFS.dir perm children) recursive none ∧
    ∀ l : List ImageInfo,
      scan_directory opener rootPath (RootFS.dir perm children) recursive none =
          Except.ok l →
      (l.length : Int) =
        min (((_iter_supported_files rootPath perm children recursive).countP
              (fun p => (_read_image_info opener p).isSome) : Int)) 100000 ∧
      (1 ≤ (((_iter_supported_files rootPath perm children recursive).countP
              (fun p => (_read_image_info opener p).isSome) : Int)) → l ≠ []) := by
  constructor
  · rfl
  · intro l hscan
    rw [scan_dir_none] at hscan
    injection hscan with hscan
    have h0 : ((([] : List ImageInfo).length : Int)) < min MAX_FILES MAX_FILES := by
      simp only [List.length_nil, Nat.cast_zero, MAX_FILES]
      omega
    have heq := scanLoop_length_eq (_read_image_info opener)
      (min MAX_FILES MAX_FILES)
      (_iter_supported_files rootPath perm children recursive) [] h0
    rw [hscan] at heq
    simp only [List.length_nil, Nat.cast_zero, MAX_FILES] at heq
    constructor
    · omega
    · intro hc
      have hlen : 0 < l.length := by omega
      exact List.ne_nil_of_length_pos hlen

/-- Witness for c10_limit_zero_absent at a concrete one-image directory. -/
theorem c10_limit_zero_absent_witness :
    scan_directory demoOpener "root" (RootFS.dir true [FSNode.file "a.png"]) true
        (some 0) =
      scan_directory demoOpener "root" (RootFS.dir true [FSNode.file "a.png"])
        true none ∧
    ([demoRecord] : List ImageInfo) ≠ [] := by
  have h := c10_limit_zero_absent demoOpener "root" true [FSNode.file "a.png"] true
  exact ⟨h.1, (h.2 [demoRecord] rfl).2 (by decide)⟩
